import Mathlib

set_option maxHeartbeats 1000000

/-!
Verification development for the ReGISTools record-mutation core.

The definitions below are a shallow embedding of the server code:
  - `src/shared/schema.ts`   (enums, id-generation defaults, sequences)
  - `src/server/routes.ts`   (route handlers, `createAuditLog`, `DatabaseStorage`)
  - `src/client/src/pages/workflows.tsx` (the approve/reject payload constructors)

Coordinates and distances are modelled as rationals; the PostGIS geodesic
distance `ST_Distance(...::geography, ...)` is an external function and is
modelled as an explicit parameter `d : GeoPoint -> GeoPoint -> Rat`.
`ST_DWithin(g1, g2, r)` is, per PostGIS, `distance g1 g2 <= r` (inclusive).
Request metadata recorded on audit rows (`ipAddress`, `userAgent`) and the
redundant `changeSummary` triple are omitted from the `AuditLog` record as no
claim mentions them; every other field is carried.
-/

/-! ## Enumerations and string constants (schema.ts) -/

def assetCategories : List String :=
  ["equipment", "vehicle", "it_equipment", "furniture", "building", "infrastructure"]

def workflowStatuses : List String :=
  ["pending", "approved", "rejected", "completed"]

def workflowTypes : List String :=
  ["purchase", "transfer", "disposal", "maintenance"]

def pendingSt : String := "pending"
def approvedSt : String := "approved"
def rejectedSt : String := "rejected"
def completedSt : String := "completed"

def assetEnt : String := "asset"
def workflowEnt : String := "workflow"

def createAct : String := "create"
def updateAct : String := "update"
def deleteAct : String := "delete"
def locationUpdateAct : String := "location_update"

/-! ## Identifier allocation (schema.ts)

`id: varchar("id").primaryKey().default(sql concat('AST-', to_char(nextval('asset_seq'), 'FM0000')))`
with `CREATE SEQUENCE IF NOT EXISTS asset_seq START 1000` (same pattern for
the DOC, WFL and WO ids).  PostgreSQL `to_char(n, 'FM0000')` renders exactly the
four digit positions of the pattern, keeping leading zeros; when the number
needs more than four digits the pattern overflows and every digit position is
rendered as the hash sign. -/

def seqStart : Nat := 1000

def digitChar (d : Nat) : Char :=
  match d with
  | 0 => '0'
  | 1 => '1'
  | 2 => '2'
  | 3 => '3'
  | 4 => '4'
  | 5 => '5'
  | 6 => '6'
  | 7 => '7'
  | 8 => '8'
  | _ => '9'

def overflowHashes : String := "####"

def toCharFM0000 (n : Nat) : String :=
  if n ≤ 9999 then
    String.mk [digitChar (n / 1000), digitChar (n / 100 % 10),
               digitChar (n / 10 % 10), digitChar (n % 10)]
  else overflowHashes

def idSep : String := "-"

def allocId (tag : String) (seq : Nat) : String :=
  tag ++ idSep ++ toCharFM0000 seq

def astTag : String := "AST"
def wflTag : String := "WFL"

/-! ## Data model (schema.ts tables, restricted to the claimed fields) -/

structure GeoPoint where
  lng : ℚ
  lat : ℚ
deriving Repr, DecidableEq

structure Asset where
  id : String
  name : String
  category : String
  custodianId : Option String
  createdBy : Option String
  location : Option GeoPoint
deriving Repr, DecidableEq

structure Workflow where
  id : String
  wtype : String
  title : String
  status : String
  completedDate : Option Nat
  comments : Option String
  updatedAt : Nat
deriving Repr, DecidableEq

inductive Snapshot
  | assetSnap (a : Asset)
  | workflowSnap (w : Workflow)
  | locationSnap (p : Option GeoPoint)
deriving Repr, DecidableEq

structure AuditLog where
  entityType : String
  entityId : String
  action : String
  userId : String
  oldValues : Option Snapshot
  newValues : Option Snapshot
deriving Repr, DecidableEq

structure ServerState where
  assets : List Asset
  workflows : List Workflow
  assetSeq : Nat
  workflowSeq : Nat
  logs : List AuditLog
deriving Repr, DecidableEq

/-! ## Error taxonomy observed in routes.ts

The handlers answer 400 on a ZodError, 404 on a missing id, 403 on the
location-ownership check and 500 from the surrounding catch block.  No route
produces a 409 or any other distinct transition error. -/

inductive HandlerError
  | validationError
  | notFound
  | forbidden
  | internalError
deriving Repr, DecidableEq

/-! ## Audit helper (routes.ts `createAuditLog`, 34-55, and
`DatabaseStorage.createAuditLog`, which performs the row insert).

The row insert can itself fail; `auditOk` stands for the success of that
insert.  When the request carries no resolvable actor (`req.user?.claims?.sub`
is absent) no insert is attempted at all. -/

def attemptAuditLog (auditOk : Bool) (actor : Option String)
    (entityType entityId action : String)
    (oldV newV : Option Snapshot) (logs : List AuditLog) :
    Except Unit (List AuditLog) :=
  match actor with
  | none => Except.ok logs
  | some uid =>
      if auditOk then
        Except.ok (logs ++ [⟨entityType, entityId, action, uid, oldV, newV⟩])
      else
        Except.error ()

/-! ## Asset route handlers (routes.ts)

Each handler returns the HTTP-level outcome together with the store state
after the call.  The state is threaded even through error responses because
writes already performed are not rolled back by the catch block. -/

/-- Request body accepted by `insertAssetSchema` (id, createdAt, updatedAt are
omitted by the schema; `createdBy` is overwritten from the actor claims). -/
structure InsertAsset where
  name : String
  category : String
  custodianId : Option String
  location : Option GeoPoint
deriving Repr, DecidableEq

def validInsertAsset (b : InsertAsset) : Bool :=
  assetCategories.contains b.category

/-- `POST /api/assets` (routes.ts 282-301).  The body literal evaluates
`authReq.user!.claims.sub` before `parse`, so a missing actor throws into the
catch block (500) before any validation or write.  On success the id is
allocated by the column default from `asset_seq` and exactly one audit row
with an absent old-value snapshot is attempted. -/
def postAsset (auditOk : Bool) (actor : Option String) (body : InsertAsset)
    (st : ServerState) : Except HandlerError Asset × ServerState :=
  match actor with
  | none => (Except.error HandlerError.internalError, st)
  | some uid =>
      if validInsertAsset body then
        let a : Asset :=
          ⟨allocId astTag st.assetSeq, body.name, body.category,
           body.custodianId, some uid, body.location⟩
        let st1 : ServerState :=
          { st with assets := st.assets ++ [a], assetSeq := st.assetSeq + 1 }
        match attemptAuditLog auditOk (some uid) assetEnt a.id createAct
            none (some (Snapshot.assetSnap a)) st1.logs with
        | Except.ok logs2 => (Except.ok a, { st1 with logs := logs2 })
        | Except.error _ => (Except.error HandlerError.internalError, st1)
      else (Except.error HandlerError.validationError, st)

/-- Partial body accepted by `insertAssetSchema.partial()`; an absent field
leaves the stored value unchanged. -/
structure AssetPatch where
  name : Option String := none
  category : Option String := none
  custodianId : Option String := none
deriving Repr, DecidableEq

def validAssetPatch (p : AssetPatch) : Bool :=
  match p.category with
  | none => true
  | some c => assetCategories.contains c

def applyAssetPatch (a : Asset) (p : AssetPatch) : Asset :=
  { a with
    name := p.name.getD a.name,
    category := p.category.getD a.category,
    custodianId :=
      match p.custodianId with
      | none => a.custodianId
      | some c => some c }

/-- `PUT /api/assets/:id` (routes.ts 303-324): fetch, 404 when absent,
validate, write, one audit row with both snapshots. -/
def putAsset (auditOk : Bool) (actor : Option String) (id : String)
    (p : AssetPatch) (st : ServerState) :
    Except HandlerError Asset × ServerState :=
  match st.assets.find? (fun a => a.id == id) with
  | none => (Except.error HandlerError.notFound, st)
  | some old =>
      if validAssetPatch p then
        let a2 := applyAssetPatch old p
        let st1 : ServerState :=
          { st with assets := st.assets.map (fun a => if a.id == id then a2 else a) }
        match attemptAuditLog auditOk actor assetEnt id updateAct
            (some (Snapshot.assetSnap old)) (some (Snapshot.assetSnap a2)) st1.logs with
        | Except.ok logs2 => (Except.ok a2, { st1 with logs := logs2 })
        | Except.error _ => (Except.error HandlerError.internalError, st1)
      else (Except.error HandlerError.validationError, st)

/-- `DELETE /api/assets/:id` (routes.ts 326-342): fetch, 404 when absent,
delete, one audit row with an absent new-value snapshot, 204. -/
def deleteAsset (auditOk : Bool) (actor : Option String) (id : String)
    (st : ServerState) : Except HandlerError Unit × ServerState :=
  match st.assets.find? (fun a => a.id == id) with
  | none => (Except.error HandlerError.notFound, st)
  | some old =>
      let st1 : ServerState :=
        { st with assets := st.assets.filter (fun a => a.id != id) }
      match attemptAuditLog auditOk actor assetEnt id deleteAct
          (some (Snapshot.assetSnap old)) none st1.logs with
      | Except.ok logs2 => (Except.ok (), { st1 with logs := logs2 })
      | Except.error _ => (Except.error HandlerError.internalError, st1)

/-- `PUT /api/assets/:id/location` (routes.ts 170-210): zod bounds check on
the body, 404 when the asset is unknown, 403 unless the actor is custodian or
creator, overwrite of the single stored point, one `location_update` audit
row carrying the previous point (possibly absent) and the new point. -/
def putAssetLocation (auditOk : Bool) (actor : Option String) (id : String)
    (lng lat : ℚ) (st : ServerState) :
    Except HandlerError Asset × ServerState :=
  if lng < -180 ∨ 180 < lng ∨ lat < -90 ∨ 90 < lat then
    (Except.error HandlerError.validationError, st)
  else
    match st.assets.find? (fun a => a.id == id) with
    | none => (Except.error HandlerError.notFound, st)
    | some old =>
        match actor with
        | none => (Except.error HandlerError.internalError, st)
        | some uid =>
            if old.custodianId = some uid ∨ old.createdBy = some uid then
              let a2 : Asset := { old with location := some ⟨lng, lat⟩ }
              let st1 : ServerState :=
                { st with assets := st.assets.map (fun a => if a.id == id then a2 else a) }
              match attemptAuditLog auditOk (some uid) assetEnt id locationUpdateAct
                  (some (Snapshot.locationSnap old.location))
                  (some (Snapshot.locationSnap (some ⟨lng, lat⟩))) st1.logs with
              | Except.ok logs2 => (Except.ok a2, { st1 with logs := logs2 })
              | Except.error _ => (Except.error HandlerError.internalError, st1)
            else (Except.error HandlerError.forbidden, st)

/-! ## Workflow update handler (routes.ts 502-522) -/

/-- Partial body accepted by `insertWorkflowSchema.partial()`, restricted to
the fields the claims exercise; an absent field leaves the stored value
unchanged.  The zod schema derives `status` from `workflowStatusEnum`, so a
present status outside the enum raises a ZodError (400). -/
structure WorkflowPatch where
  status : Option String := none
  comments : Option String := none
  completedDate : Option Nat := none
deriving Repr, DecidableEq

def validWorkflowPatch (p : WorkflowPatch) : Bool :=
  match p.status with
  | none => true
  | some s => workflowStatuses.contains s

def applyWorkflowPatch (w : Workflow) (p : WorkflowPatch) (now : Nat) : Workflow :=
  { w with
    status := p.status.getD w.status,
    comments :=
      match p.comments with
      | none => w.comments
      | some c => some c,
    completedDate :=
      match p.completedDate with
      | none => w.completedDate
      | some ts => some ts,
    updatedAt := now }

/-- `PUT /api/workflows/:id`: fetch, 404 when absent, zod-validate the
partial body, unconditionally write it (`DatabaseStorage.updateWorkflow`,
routes.ts 876-883, sets whatever fields arrive plus `updatedAt`), then one
audit row.  No inspection of the current status happens anywhere. -/
def putWorkflow (auditOk : Bool) (actor : Option String) (id : String)
    (p : WorkflowPatch) (now : Nat) (st : ServerState) :
    Except HandlerError Workflow × ServerState :=
  match st.workflows.find? (fun w => w.id == id) with
  | none => (Except.error HandlerError.notFound, st)
  | some old =>
      if validWorkflowPatch p then
        let w2 := applyWorkflowPatch old p now
        let st1 : ServerState :=
          { st with workflows := st.workflows.map (fun w => if w.id == id then w2 else w) }
        match attemptAuditLog auditOk actor workflowEnt id updateAct
            (some (Snapshot.workflowSnap old)) (some (Snapshot.workflowSnap w2)) st1.logs with
        | Except.ok logs2 => (Except.ok w2, { st1 with logs := logs2 })
        | Except.error _ => (Except.error HandlerError.internalError, st1)
      else (Except.error HandlerError.validationError, st)

/-- Payload sent by `handleApprove` in workflows.tsx 67-75. -/
def approvePatch (ts : Nat) : WorkflowPatch :=
  { status := some approvedSt, completedDate := some ts }

/-- Payload sent by `handleReject` in workflows.tsx 77-89 (only fired when a
non-empty reason was entered). -/
def rejectClientPatch (ts : Nat) (reason : String) : WorkflowPatch :=
  { status := some rejectedSt, comments := some reason, completedDate := some ts }

/-! ## Spatial proximity query (routes.ts 98-132 and
`DatabaseStorage.getAssetsNearLocation`, 1517-1551)

The SQL is `WHERE location IS NOT NULL AND ST_DWithin(location::geography,
point, radius) ORDER BY distance` with `distance = ST_Distance(...)`; the
geodesic metric is the parameter `d`.  `ST_DWithin` holds when the distance
is at most the radius (inclusive). -/

def insertByDistance (x : Asset × ℚ) : List (Asset × ℚ) → List (Asset × ℚ)
  | [] => [x]
  | y :: ys => if x.2 ≤ y.2 then x :: y :: ys else y :: insertByDistance x ys

def sortByDistance : List (Asset × ℚ) → List (Asset × ℚ)
  | [] => []
  | x :: xs => insertByDistance x (sortByDistance xs)

def getAssetsNearLocation (d : GeoPoint → GeoPoint → ℚ) (store : List Asset)
    (lng lat radius : ℚ) : List (Asset × ℚ) :=
  sortByDistance (store.filterMap (fun a =>
    match a.location with
    | none => none
    | some p => if d p ⟨lng, lat⟩ ≤ radius then some (a, d p ⟨lng, lat⟩) else none))

def longitudeRangeMsg : String := "Longitude must be between -180 and 180"
def latitudeRangeMsg : String := "Latitude must be between -90 and 90"
def radiusRangeMsg : String := "Radius must be between 0 and 100,000 meters"

/-- `GET /api/spatial/assets` (routes.ts 98-132): the three range checks run
in order before `storage.getAssetsNearLocation` is invoked; each failure
answers 400 with a message naming the offending field. -/
def spatialAssetsHandler (d : GeoPoint → GeoPoint → ℚ) (store : List Asset)
    (lng lat radius : ℚ) : Except String (List (Asset × ℚ)) :=
  if lng < -180 ∨ 180 < lng then Except.error longitudeRangeMsg
  else if lat < -90 ∨ 90 < lat then Except.error latitudeRangeMsg
  else if radius ≤ 0 ∨ 100000 < radius then Except.error radiusRangeMsg
  else Except.ok (getAssetsNearLocation d store lng lat radius)

/-! ## List pagination (routes.ts 255-258, 525-531)

`parseInt(req.query.limit as string) || 20` — JavaScript `parseInt` yields
NaN for an absent or non-numeric parameter, and both NaN and 0 are falsy, so
the default replaces them.  `none` models the NaN outcome. -/

def jsNumOr (parsed : Option Int) (dflt : Int) : Int :=
  match parsed with
  | none => dflt
  | some n => if n = 0 then dflt else n

def assetsListLimit (raw : Option Int) : Int := jsNumOr raw 20
def assetsListOffset (raw : Option Int) : Int := jsNumOr raw 0
def auditLogsLimit (raw : Option Int) : Int := jsNumOr raw 50

/-- The page slice `.limit(limit).offset(offset)` served by `getAssets`
(ordering by creation date is immaterial to the pagination claims, so the
stored order stands in for it). -/
def assetsListPage (xs : List Asset) (rawLimit rawOffset : Option Int) :
    List Asset × Nat :=
  (((xs.drop (assetsListOffset rawOffset).toNat).take (assetsListLimit rawLimit).toNat),
   xs.length)

/-! ## Concrete fixtures used by witnesses and counterexamples -/

def u0 : String := "user-1"
def otherUser : String := "user-2"
def n0 : String := "Generator"
def equipmentCat : String := "equipment"
def purchaseTy : String := "purchase"
def t0 : String := "Buy generator"
def bogusSt : String := "cancelled"
def reason0 : String := "over budget"

def st0 : ServerState :=
  { assets := [], workflows := [], assetSeq := seqStart, workflowSeq := seqStart,
    logs := [] }

def body0 : InsertAsset :=
  { name := n0, category := equipmentCat, custodianId := none, location := none }

def aid9 : String := allocId astTag seqStart

def a9 : Asset :=
  { id := aid9, name := n0, category := equipmentCat, custodianId := some u0,
    createdBy := some u0, location := none }

def st9 : ServerState := { st0 with assets := [a9] }

def patch0 : AssetPatch := {}

def wid0 : String := allocId wflTag seqStart

def approvedWf : Workflow :=
  { id := wid0, wtype := purchaseTy, title := t0, status := approvedSt,
    completedDate := some 1, comments := none, updatedAt := 0 }

def pendingWf : Workflow :=
  { id := wid0, wtype := purchaseTy, title := t0, status := pendingSt,
    completedDate := none, comments := none, updatedAt := 0 }

def stWfA : ServerState := { st0 with workflows := [approvedWf] }
def stWfP : ServerState := { st0 with workflows := [pendingWf] }

def rejectPatch0 : WorkflowPatch := { status := some rejectedSt }
def approveNoDatePatch : WorkflowPatch := { status := some approvedSt }

def qabs (x : ℚ) : ℚ := if x < 0 then -x else x

/-- A stand-in metric for the geodesic distance in concrete evaluations
(taxicab on the coordinates; any metric exhibits the inclusive boundary of
`ST_DWithin`). -/
def dTaxi (p q : GeoPoint) : ℚ := qabs (p.lng - q.lng) + qabs (p.lat - q.lat)

def aBoundary : Asset :=
  { id := aid9, name := n0, category := equipmentCat, custodianId := none,
    createdBy := none, location := some ⟨100, 0⟩ }

def firstAssetId : String := "AST-1000"
def overflowAssetId : String := "AST-####"
def naturalTenThousand : String := "AST-10000"

/-- The asset produced by `postAsset` from `body0` at the initial sequence
value, and the states expected after a create and after a delete; used by the
concrete audit checks. -/
def newAsset0 : Asset := ⟨aid9, n0, equipmentCat, none, some u0, none⟩

def stPost0 : ServerState :=
  { assets := [newAsset0], workflows := [], assetSeq := seqStart + 1,
    workflowSeq := seqStart,
    logs := [⟨assetEnt, aid9, createAct, u0, none, some (Snapshot.assetSnap newAsset0)⟩] }

def delRec9 : AuditLog := ⟨assetEnt, aid9, deleteAct, u0, some (Snapshot.assetSnap a9), none⟩

def stDel9 : ServerState :=
  { assets := [], workflows := [], assetSeq := seqStart, workflowSeq := seqStart,
    logs := [delRec9] }

/-! ## Lemmas about the distance sort -/

theorem mem_insertByDistance (x z : Asset × ℚ) (l : List (Asset × ℚ)) :
    z ∈ insertByDistance x l ↔ z = x ∨ z ∈ l := by
  induction l with
  | nil => simp [insertByDistance]
  | cons y ys ih =>
      by_cases h : x.2 ≤ y.2
      · simp [insertByDistance, h]
      · simp only [insertByDistance, if_neg h, List.mem_cons, ih]
        tauto

theorem mem_sortByDistance (z : Asset × ℚ) (l : List (Asset × ℚ)) :
    z ∈ sortByDistance l ↔ z ∈ l := by
  induction l with
  | nil => simp [sortByDistance]
  | cons x xs ih => simp [sortByDistance, mem_insertByDistance, ih]

theorem head_insertByDistance (x z : Asset × ℚ) (l : List (Asset × ℚ))
    (hz : (insertByDistance x l).head? = some z) : z = x ∨ l.head? = some z := by
  cases l with
  | nil =>
      simp only [insertByDistance, List.head?_cons, Option.some.injEq] at hz
      exact Or.inl hz.symm
  | cons y ys =>
      by_cases h : x.2 ≤ y.2
      · simp only [insertByDistance, if_pos h, List.head?_cons, Option.some.injEq] at hz
        exact Or.inl hz.symm
      · simp only [insertByDistance, if_neg h, List.head?_cons, Option.some.injEq] at hz
        exact Or.inr (by simp [hz])

theorem chain_insertByDistance (x : Asset × ℚ) (l : List (Asset × ℚ))
    (h : List.Chain' (fun a b => a.2 ≤ b.2) l) :
    List.Chain' (fun a b => a.2 ≤ b.2) (insertByDistance x l) := by
  induction l with
  | nil => simp [insertByDistance]
  | cons y ys ih =>
      by_cases hxy : x.2 ≤ y.2
      · simp only [insertByDistance, if_pos hxy]
        exact List.chain'_cons.mpr ⟨hxy, h⟩
      · simp only [insertByDistance, if_neg hxy]
        refine List.chain'_cons'.mpr ⟨?_, ih h.tail⟩
        intro z hz
        rcases head_insertByDistance x z ys hz with hzx | hys
        · exact hzx ▸ le_of_not_le hxy
        · exact (List.chain'_cons'.mp h).1 z hys

theorem chain_sortByDistance (l : List (Asset × ℚ)) :
    List.Chain' (fun a b => a.2 ≤ b.2) (sortByDistance l) := by
  induction l with
  | nil => simp [sortByDistance]
  | cons x xs ih => exact chain_insertByDistance x _ ih

/-! ## Claim theorems -/

/-- Claim C3: the proximity query rejects out-of-range longitude, latitude or
radius with a message naming the offending field, before any store query
runs (the error is the same for every store), and accepts any input inside
all three ranges. -/
theorem spatialQueryValidation (d : GeoPoint → GeoPoint → ℚ) (store : List Asset)
    (lng lat radius : ℚ) :
    ((lng < -180 ∨ 180 < lng) →
        spatialAssetsHandler d store lng lat radius = Except.error longitudeRangeMsg) ∧
    (-180 ≤ lng → lng ≤ 180 → (lat < -90 ∨ 90 < lat) →
        spatialAssetsHandler d store lng lat radius = Except.error latitudeRangeMsg) ∧
    (-180 ≤ lng → lng ≤ 180 → -90 ≤ lat → lat ≤ 90 →
        (radius ≤ 0 ∨ 100000 < radius) →
        spatialAssetsHandler d store lng lat radius = Except.error radiusRangeMsg) ∧
    (-180 ≤ lng → lng ≤ 180 → -90 ≤ lat → lat ≤ 90 → 0 < radius → radius ≤ 100000 →
        spatialAssetsHandler d store lng lat radius =
          Except.ok (getAssetsNearLocation d store lng lat radius)) := by
  refine ⟨?_, ?_, ?_, ?_⟩
  · intro h
    rw [spatialAssetsHandler, if_pos h]
  · intro h1 h2 h3
    rw [spatialAssetsHandler, if_neg (by push_neg; exact ⟨h1, h2⟩), if_pos h3]
  · intro h1 h2 h3 h4 h5
    rw [spatialAssetsHandler, if_neg (by push_neg; exact ⟨h1, h2⟩),
      if_neg (by push_neg; exact ⟨h3, h4⟩), if_pos h5]
  · intro h1 h2 h3 h4 h5 h6
    rw [spatialAssetsHandler, if_neg (by push_neg; exact ⟨h1, h2⟩),
      if_neg (by push_neg; exact ⟨h3, h4⟩), if_neg (by push_neg; exact ⟨h5, h6⟩)]

theorem spatialQueryValidation_check :
    spatialAssetsHandler dTaxi [] 200 0 100 = Except.error longitudeRangeMsg ∧
    spatialAssetsHandler dTaxi [] 0 0 200000 = Except.error radiusRangeMsg ∧
    spatialAssetsHandler dTaxi [] 0 0 100 =
      Except.ok (getAssetsNearLocation dTaxi [] 0 0 100) := by
  refine ⟨?_, ?_, ?_⟩
  · exact (spatialQueryValidation dTaxi [] 200 0 100).1 (by norm_num)
  · exact (spatialQueryValidation dTaxi [] 0 0 200000).2.2.1
      (by norm_num) (by norm_num) (by norm_num) (by norm_num) (by norm_num)
  · exact (spatialQueryValidation dTaxi [] 0 0 100).2.2.2
      (by norm_num) (by norm_num) (by norm_num) (by norm_num) (by norm_num) (by norm_num)

/-- Claim C4 (amended): every returned entry carries a stored point and a
distance at most the radius, and the sequence is non-decreasing in
distance. -/
theorem nearWithinRadiusSorted (d : GeoPoint → GeoPoint → ℚ) (store : List Asset)
    (lng lat radius : ℚ) :
    (∀ a dist, (a, dist) ∈ getAssetsNearLocation d store lng lat radius →
        ∃ p, a.location = some p ∧ dist = d p ⟨lng, lat⟩ ∧ dist ≤ radius) ∧
    List.Chain' (fun x y => x.2 ≤ y.2) (getAssetsNearLocation d store lng lat radius) := by
  constructor
  · intro a dist hmem
    have h2 : (a, dist) ∈ store.filterMap (fun a =>
        match a.location with
        | none => none
        | some p => if d p ⟨lng, lat⟩ ≤ radius then some (a, d p ⟨lng, lat⟩) else none) :=
      (mem_sortByDistance _ _).mp (by simpa [getAssetsNearLocation] using hmem)
    rw [List.mem_filterMap] at h2
    obtain ⟨b, _, hfb⟩ := h2
    cases hloc : b.location with
    | none => rw [hloc] at hfb; cases hfb
    | some p =>
        rw [hloc] at hfb
        have hfb2 : (if d p ⟨lng, lat⟩ ≤ radius
            then some (b, d p ⟨lng, lat⟩) else none) = some (a, dist) := hfb
        by_cases hle : d p ⟨lng, lat⟩ ≤ radius
        · rw [if_pos hle] at hfb2
          simp only [Option.some.injEq, Prod.mk.injEq] at hfb2
          obtain ⟨rfl, rfl⟩ := hfb2
          exact ⟨p, hloc, rfl, hle⟩
        · rw [if_neg hle] at hfb2; cases hfb2
  · simpa [getAssetsNearLocation] using chain_sortByDistance _

/-- Claim C4 counterexample: an asset at distance exactly equal to the radius
is returned (`ST_DWithin` is inclusive), so 'strictly less than radius' fails. -/
theorem boundaryDistanceIncluded :
    dTaxi ⟨100, 0⟩ ⟨0, 0⟩ = 100 ∧
    getAssetsNearLocation dTaxi [aBoundary] 0 0 100 = [(aBoundary, 100)] ∧
    ¬ ((100 : ℚ) < 100) := by
  refine ⟨by norm_num [dTaxi, qabs], ?_, by norm_num⟩
  norm_num [getAssetsNearLocation, sortByDistance, insertByDistance, dTaxi, qabs,
    aBoundary, List.filterMap]

theorem nearWithinRadiusSorted_check :
    (∃ p, aBoundary.location = some p ∧ (100 : ℚ) = dTaxi p ⟨0, 0⟩ ∧ (100 : ℚ) ≤ 100) ∧
    List.Chain' (fun x y => x.2 ≤ y.2) (getAssetsNearLocation dTaxi [aBoundary] 0 0 100) := by
  have h := nearWithinRadiusSorted dTaxi [aBoundary] 0 0 100
  refine ⟨h.1 aBoundary 100 ?_, h.2⟩
  norm_num [getAssetsNearLocation, sortByDistance, insertByDistance, dTaxi, qabs,
    aBoundary, List.filterMap]

/-- Claim C5 (code bug): the first asset id is AST-1000 as claimed, but at
sequence value 10000 the FM0000 pattern overflows to hash signs instead of
growing naturally, so consecutive allocations collide. -/
theorem idOverflowCollision :
    allocId astTag seqStart = firstAssetId ∧
    allocId astTag 10000 = overflowAssetId ∧
    allocId astTag 10001 = allocId astTag 10000 ∧
    allocId astTag 10000 ≠ naturalTenThousand := by
  refine ⟨rfl, rfl, rfl, by decide⟩

/-- Claim C10: a limit that parses to 0 or NaN falls back to the default page
size (20 for entity lists, 50 for audit logs), an absent or non-numeric
offset falls back to 0, the effective limit is never 0, and a limit-0 request
on a non-empty store yields a non-empty page. -/
theorem listPaginationDefaults :
    (assetsListLimit none = 20 ∧ assetsListLimit (some 0) = 20 ∧
     auditLogsLimit none = 50 ∧ auditLogsLimit (some 0) = 50 ∧
     assetsListOffset none = 0) ∧
    (∀ raw : Option Int, assetsListLimit raw ≠ 0) ∧
    (∀ xs : List Asset, xs ≠ [] → (assetsListPage xs (some 0) none).1 ≠ []) := by
  refine ⟨⟨rfl, rfl, rfl, rfl, rfl⟩, ?_, ?_⟩
  · intro raw
    cases raw with
    | none => decide
    | some n =>
        simp only [assetsListLimit, jsNumOr]
        by_cases h : n = 0
        · rw [if_pos h]; decide
        · rw [if_neg h]; exact h
  · intro xs hxs h
    have h2 : xs.take 20 = [] := by
      simpa [assetsListPage, assetsListLimit, assetsListOffset, jsNumOr] using h
    rcases List.take_eq_nil_iff.mp h2 with h0 | h0
    · exact absurd h0 (by norm_num)
    · exact hxs h0

theorem listPaginationDefaults_check :
    (assetsListPage [a9] (some 0) none).1 ≠ [] :=
  listPaginationDefaults.2.2 [a9] (by simp)

/-- Claim C1 counterexample: a workflow currently in status approved is moved
to rejected by the update route; the call succeeds, no transition error of
any kind is raised, and the stored status changes. -/
theorem approvedToRejectedSucceeds :
    (putWorkflow true (some u0) wid0 rejectPatch0 5 stWfA).1 =
      Except.ok { approvedWf with status := rejectedSt, updatedAt := 5 } ∧
    (putWorkflow true (some u0) wid0 rejectPatch0 5 stWfA).2.workflows =
      [{ approvedWf with status := rejectedSt, updatedAt := 5 }] ∧
    approvedWf.status = approvedSt ∧ rejectedSt ≠ approvedSt := by
  refine ⟨rfl, rfl, rfl, by decide⟩

/-- Claim C1 (amended): the update route checks only that a supplied status
belongs to the enum, never the current state: any listed status is written
regardless of the workflow's present status (so approved moves to rejected),
and only an unlisted status fails -- with the schema validation error, not a
transition error -- performing no write. -/
theorem workflowUpdateNoTransitionGuard (actor : Option String) (id s : String)
    (now : Nat) (st : ServerState) (w : Workflow)
    (hw : st.workflows.find? (fun x => x.id == id) = some w) :
    (workflowStatuses.contains s = true →
        ∃ w2 st2,
          putWorkflow true actor id { status := some s } now st = (Except.ok w2, st2) ∧
          w2.status = s) ∧
    (workflowStatuses.contains s = false →
        putWorkflow true actor id { status := some s } now st =
          (Except.error HandlerError.validationError, st)) := by
  constructor
  · intro hs
    have hs2 : s ∈ workflowStatuses := by simpa using hs
    cases actor with
    | none =>
        refine ⟨applyWorkflowPatch w { status := some s } now,
          { st with workflows := st.workflows.map (fun x =>
              if x.id == id then applyWorkflowPatch w { status := some s } now else x) },
          ?_, ?_⟩
        · simp [putWorkflow, hw, validWorkflowPatch, hs2, attemptAuditLog]
        · simp [applyWorkflowPatch]
    | some uid =>
        refine ⟨applyWorkflowPatch w { status := some s } now,
          { st with
            workflows := st.workflows.map (fun x =>
              if x.id == id then applyWorkflowPatch w { status := some s } now else x),
            logs := st.logs ++ [⟨workflowEnt, id, updateAct, uid,
              some (Snapshot.workflowSnap w),
              some (Snapshot.workflowSnap (applyWorkflowPatch w { status := some s } now))⟩] },
          ?_, ?_⟩
        · simp [putWorkflow, hw, validWorkflowPatch, hs2, attemptAuditLog]
        · simp [applyWorkflowPatch]
  · intro hs
    have hs2 : ¬ s ∈ workflowStatuses := by simpa using hs
    simp [putWorkflow, hw, validWorkflowPatch, hs2]

theorem workflowUpdateNoTransitionGuard_check :
    (∃ w2 st2,
        putWorkflow true (some u0) wid0 { status := some rejectedSt } 5 stWfA =
          (Except.ok w2, st2) ∧ w2.status = rejectedSt) ∧
    putWorkflow true (some u0) wid0 { status := some bogusSt } 5 stWfA =
      (Except.error HandlerError.validationError, stWfA) := by
  constructor
  · exact (workflowUpdateNoTransitionGuard (some u0) wid0 rejectedSt 5 stWfA
      approvedWf rfl).1 (by decide)
  · exact (workflowUpdateNoTransitionGuard (some u0) wid0 bogusSt 5 stWfA
      approvedWf rfl).2 (by decide)

/-- Claim C6 counterexample: the update route lets a pending workflow become
approved with no completedDate, and stores that record, breaking the claimed
invariant that completedDate is set exactly on the terminal statuses. -/
theorem approvedWithoutCompletedDate :
    (putWorkflow true (some u0) wid0 approveNoDatePatch 5 stWfP).1 =
      Except.ok { pendingWf with status := approvedSt, updatedAt := 5 } ∧
    (putWorkflow true (some u0) wid0 approveNoDatePatch 5 stWfP).2.workflows =
      [{ pendingWf with status := approvedSt, updatedAt := 5 }] ∧
    ({ pendingWf with status := approvedSt, updatedAt := 5 } : Workflow).completedDate
      = none := by
  exact ⟨rfl, rfl, rfl⟩

/-- Claim C6 (amended): the server does not enforce the completedDate
invariant; it is upheld only by the web client, whose approve and reject
payloads always carry the terminal status together with a completion
timestamp (and a reason on reject), so records updated through those
handlers satisfy it. -/
theorem clientPatchesKeepInvariant (actor : Option String) (id : String)
    (ts now : Nat) (reason : String) (st : ServerState) (w : Workflow)
    (hw : st.workflows.find? (fun x => x.id == id) = some w) :
    (∃ w1 st1,
        putWorkflow true actor id (approvePatch ts) now st = (Except.ok w1, st1) ∧
        w1.status = approvedSt ∧ w1.completedDate = some ts) ∧
    (∃ w2 st2,
        putWorkflow true actor id (rejectClientPatch ts reason) now st =
          (Except.ok w2, st2) ∧
        w2.status = rejectedSt ∧ w2.completedDate = some ts ∧
        w2.comments = some reason) := by
  constructor
  · cases actor with
    | none =>
        refine ⟨applyWorkflowPatch w (approvePatch ts) now,
          { st with workflows := st.workflows.map (fun x =>
              if x.id == id then applyWorkflowPatch w (approvePatch ts) now else x) },
          ?_, ?_, ?_⟩
        · simp [putWorkflow, hw, validWorkflowPatch, approvePatch, attemptAuditLog,
            approvedSt, workflowStatuses]
        · simp [applyWorkflowPatch, approvePatch]
        · simp [applyWorkflowPatch, approvePatch]
    | some uid =>
        refine ⟨applyWorkflowPatch w (approvePatch ts) now,
          { st with
            workflows := st.workflows.map (fun x =>
              if x.id == id then applyWorkflowPatch w (approvePatch ts) now else x),
            logs := st.logs ++ [⟨workflowEnt, id, updateAct, uid,
              some (Snapshot.workflowSnap w),
              some (Snapshot.workflowSnap (applyWorkflowPatch w (approvePatch ts) now))⟩] },
          ?_, ?_, ?_⟩
        · simp [putWorkflow, hw, validWorkflowPatch, approvePatch, attemptAuditLog,
            approvedSt, workflowStatuses]
        · simp [applyWorkflowPatch, approvePatch]
        · simp [applyWorkflowPatch, approvePatch]
  · cases actor with
    | none =>
        refine ⟨applyWorkflowPatch w (rejectClientPatch ts reason) now,
          { st with workflows := st.workflows.map (fun x =>
              if x.id == id then applyWorkflowPatch w (rejectClientPatch ts reason) now
              else x) },
          ?_, ?_, ?_, ?_⟩
        · simp [putWorkflow, hw, validWorkflowPatch, rejectClientPatch, attemptAuditLog,
            rejectedSt, workflowStatuses]
        · simp [applyWorkflowPatch, rejectClientPatch]
        · simp [applyWorkflowPatch, rejectClientPatch]
        · simp [applyWorkflowPatch, rejectClientPatch]
    | some uid =>
        refine ⟨applyWorkflowPatch w (rejectClientPatch ts reason) now,
          { st with
            workflows := st.workflows.map (fun x =>
              if x.id == id then applyWorkflowPatch w (rejectClientPatch ts reason) now
              else x),
            logs := st.logs ++ [⟨workflowEnt, id, updateAct, uid,
              some (Snapshot.workflowSnap w),
              some (Snapshot.workflowSnap
                (applyWorkflowPatch w (rejectClientPatch ts reason) now))⟩] },
          ?_, ?_, ?_, ?_⟩
        · simp [putWorkflow, hw, validWorkflowPatch, rejectClientPatch, attemptAuditLog,
            rejectedSt, workflowStatuses]
        · simp [applyWorkflowPatch, rejectClientPatch]
        · simp [applyWorkflowPatch, rejectClientPatch]
        · simp [applyWorkflowPatch, rejectClientPatch]

theorem clientPatchesKeepInvariant_check :
    (∃ w1 st1,
        putWorkflow true (some u0) wid0 (approvePatch 9) 5 stWfP = (Except.ok w1, st1) ∧
        w1.status = approvedSt ∧ w1.completedDate = some 9) ∧
    (∃ w2 st2,
        putWorkflow true (some u0) wid0 (rejectClientPatch 9 reason0) 5 stWfP =
          (Except.ok w2, st2) ∧
        w2.status = rejectedSt ∧ w2.completedDate = some 9 ∧
        w2.comments = some reason0) :=
  clientPatchesKeepInvariant (some u0) wid0 9 5 reason0 stWfP pendingWf rfl

/-- Claim C7 counterexample: when the audit insert fails after a successful
asset insert, the create route answers 500 even though the new asset is in
the store -- the audit failure masks the mutation's success. -/
theorem auditFailureMasksSuccess :
    (postAsset false (some u0) body0 st0).1 = Except.error HandlerError.internalError ∧
    (postAsset false (some u0) body0 st0).2.assets =
      [{ id := aid9, name := n0, category := equipmentCat, custodianId := none,
         createdBy := some u0, location := none }] ∧
    (postAsset false (some u0) body0 st0).2.logs = [] :=
  ⟨rfl, rfl, rfl⟩

/-- Claim C7 (amended): the audit write is awaited inside the same try block
as the mutation, so its failure turns the response into a 500 internal error;
the already-performed entity write is kept (not rolled back) and no audit row
is recorded. -/
theorem auditFailureErrorsButPersists (uid : String) (body : InsertAsset)
    (st : ServerState) (hv : validInsertAsset body = true) :
    ∃ st2,
      postAsset false (some uid) body st = (Except.error HandlerError.internalError, st2) ∧
      st2.assets = st.assets ++
        [⟨allocId astTag st.assetSeq, body.name, body.category, body.custodianId,
          some uid, body.location⟩] ∧
      st2.logs = st.logs := by
  refine ⟨{ st with
      assets := st.assets ++
        [⟨allocId astTag st.assetSeq, body.name, body.category, body.custodianId,
          some uid, body.location⟩],
      assetSeq := st.assetSeq + 1 }, ?_, rfl, rfl⟩
  simp [postAsset, hv, attemptAuditLog]

theorem auditFailureErrorsButPersists_check :
    ∃ st2,
      postAsset false (some u0) body0 st0 = (Except.error HandlerError.internalError, st2) ∧
      st2.assets = st0.assets ++
        [⟨allocId astTag st0.assetSeq, body0.name, body0.category, body0.custodianId,
          some u0, body0.location⟩] ∧
      st2.logs = st0.logs :=
  auditFailureErrorsButPersists u0 body0 st0 rfl

/-- Claim C8: updating an id that is not in the store answers 404 and leaves
the state (entities and audit log alike) untouched. -/
theorem updateUnknownIdNotFound (auditOk : Bool) (actor : Option String)
    (id : String) (p : AssetPatch) (st : ServerState)
    (hfind : st.assets.find? (fun a => a.id == id) = none) :
    putAsset auditOk actor id p st = (Except.error HandlerError.notFound, st) := by
  simp [putAsset, hfind]

theorem updateUnknownIdNotFound_check :
    putAsset true (some u0) aid9 patch0 st0 = (Except.error HandlerError.notFound, st0) :=
  updateUnknownIdNotFound true (some u0) aid9 patch0 st0 rfl

/-- Claim C9: a successful location update by the custodian or creator
returns the asset holding only the new point and appends exactly one
`location_update` audit row whose old snapshot is the previous point (or its
absence) and whose new snapshot is the point just set. -/
theorem setLocationAuditsOnce (uid id : String) (lng lat : ℚ) (st : ServerState)
    (old : Asset)
    (hfind : st.assets.find? (fun a => a.id == id) = some old)
    (hauth : old.custodianId = some uid ∨ old.createdBy = some uid)
    (hlng1 : -180 ≤ lng) (hlng2 : lng ≤ 180)
    (hlat1 : -90 ≤ lat) (hlat2 : lat ≤ 90) :
    ∃ a2 st2,
      putAssetLocation true (some uid) id lng lat st = (Except.ok a2, st2) ∧
      a2 = { old with location := some ⟨lng, lat⟩ } ∧
      a2.location = some ⟨lng, lat⟩ ∧
      st2.assets = st.assets.map (fun a => if a.id == id then a2 else a) ∧
      st2.logs = st.logs ++ [⟨assetEnt, id, locationUpdateAct, uid,
        some (Snapshot.locationSnap old.location),
        some (Snapshot.locationSnap (some ⟨lng, lat⟩))⟩] := by
  have hb : ¬ (lng < -180 ∨ 180 < lng ∨ lat < -90 ∨ 90 < lat) := by
    push_neg
    exact ⟨hlng1, hlng2, hlat1, hlat2⟩
  refine ⟨{ old with location := some ⟨lng, lat⟩ },
    { st with
      assets := st.assets.map (fun a =>
        if a.id == id then { old with location := some ⟨lng, lat⟩ } else a),
      logs := st.logs ++ [⟨assetEnt, id, locationUpdateAct, uid,
        some (Snapshot.locationSnap old.location),
        some (Snapshot.locationSnap (some ⟨lng, lat⟩))⟩] },
    ?_, rfl, rfl, rfl, rfl⟩
  simp [putAssetLocation, hb, hfind, hauth, attemptAuditLog]

theorem setLocationAuditsOnce_check :
    ∃ a2 st2,
      putAssetLocation true (some u0) aid9 (-74) 41 st9 = (Except.ok a2, st2) ∧
      a2 = { a9 with location := some ⟨-74, 41⟩ } ∧
      a2.location = some ⟨-74, 41⟩ ∧
      st2.assets = st9.assets.map (fun a => if a.id == aid9 then a2 else a) ∧
      st2.logs = st9.logs ++ [⟨assetEnt, aid9, locationUpdateAct, u0,
        some (Snapshot.locationSnap a9.location),
        some (Snapshot.locationSnap (some ⟨-74, 41⟩))⟩] :=
  setLocationAuditsOnce u0 aid9 (-74) 41 st9 a9 rfl (Or.inl rfl)
    (by norm_num) (by norm_num) (by norm_num) (by norm_num)

/-- Claim C2: every successful create, update or delete appends exactly one
audit row whose entityId is the mutated entity and whose action is the call
kind, with the old snapshot absent on create and the new snapshot absent on
delete; when no actor resolves, the mutation succeeds and no row is
appended. -/
theorem mutationAuditExactlyOnce (actor : Option String) (body : InsertAsset)
    (p : AssetPatch) (idU idD : String) (stC stU stD : ServerState) :
    (∀ a st2, postAsset true actor body stC = (Except.ok a, st2) →
        (∀ uid, actor = some uid →
            st2.logs = stC.logs ++
              [⟨assetEnt, a.id, createAct, uid, none, some (Snapshot.assetSnap a)⟩]) ∧
        (actor = none → st2.logs = stC.logs)) ∧
    (∀ a st2, putAsset true actor idU p stU = (Except.ok a, st2) →
        (∀ uid, actor = some uid →
            ∃ old, stU.assets.find? (fun x => x.id == idU) = some old ∧
              st2.logs = stU.logs ++
                [⟨assetEnt, idU, updateAct, uid, some (Snapshot.assetSnap old),
                  some (Snapshot.assetSnap a)⟩]) ∧
        (actor = none → st2.logs = stU.logs)) ∧
    (∀ r st2, deleteAsset true actor idD stD = (Except.ok r, st2) →
        (∀ uid, actor = some uid →
            ∃ old, stD.assets.find? (fun x => x.id == idD) = some old ∧
              st2.logs = stD.logs ++
                [⟨assetEnt, idD, deleteAct, uid, some (Snapshot.assetSnap old), none⟩]) ∧
        (actor = none → st2.logs = stD.logs)) := by
  refine ⟨?_, ?_, ?_⟩
  · intro a st2 h
    cases actor with
    | none => simp [postAsset] at h
    | some uid =>
        cases hv : validInsertAsset body with
        | false => simp [postAsset, hv] at h
        | true =>
            simp only [postAsset, hv, if_true, attemptAuditLog] at h
            simp only [if_true, Prod.mk.injEq, Except.ok.injEq] at h
            obtain ⟨rfl, rfl⟩ := h
            constructor
            · intro uid2 huid
              obtain rfl : uid = uid2 := by injection huid
              simp
            · intro hnone
              cases hnone
  · intro a st2 h
    cases hfind : stU.assets.find? (fun x => x.id == idU) with
    | none => simp [putAsset, hfind] at h
    | some old =>
        cases hv : validAssetPatch p with
        | false => simp [putAsset, hfind, hv] at h
        | true =>
            cases actor with
            | none =>
                simp only [putAsset, hfind, hv, if_true, attemptAuditLog] at h
                simp only [Prod.mk.injEq, Except.ok.injEq] at h
                obtain ⟨rfl, rfl⟩ := h
                exact ⟨(fun uid2 huid => nomatch huid), fun _ => rfl⟩
            | some uid =>
                simp only [putAsset, hfind, hv, if_true, attemptAuditLog] at h
                simp only [if_true, Prod.mk.injEq, Except.ok.injEq] at h
                obtain ⟨rfl, rfl⟩ := h
                constructor
                · intro uid2 huid
                  obtain rfl : uid = uid2 := by injection huid
                  exact ⟨old, rfl, by simp⟩
                · intro hnone
                  cases hnone
  · intro r st2 h
    cases hfind : stD.assets.find? (fun x => x.id == idD) with
    | none => simp [deleteAsset, hfind] at h
    | some old =>
        cases actor with
        | none =>
            simp only [deleteAsset, hfind, attemptAuditLog] at h
            simp only [Prod.mk.injEq, Except.ok.injEq] at h
            obtain ⟨-, rfl⟩ := h
            exact ⟨(fun uid2 huid => nomatch huid), fun _ => rfl⟩
        | some uid =>
            simp only [deleteAsset, hfind, attemptAuditLog] at h
            simp only [if_true, Prod.mk.injEq, Except.ok.injEq] at h
            obtain ⟨-, rfl⟩ := h
            constructor
            · intro uid2 huid
              obtain rfl : uid = uid2 := by injection huid
              exact ⟨old, rfl, by simp⟩
            · intro hnone
              cases hnone

theorem mutationAuditExactlyOnce_check :
    stPost0.logs = st0.logs ++
      [⟨assetEnt, newAsset0.id, createAct, u0, none, some (Snapshot.assetSnap newAsset0)⟩] ∧
    (∃ old, st9.assets.find? (fun x => x.id == aid9) = some old ∧
      stDel9.logs = st9.logs ++
        [⟨assetEnt, aid9, deleteAct, u0, some (Snapshot.assetSnap old), none⟩]) := by
  have h := mutationAuditExactlyOnce (some u0) body0 patch0 aid9 aid9 st0 st0 st9
  exact ⟨(h.1 newAsset0 stPost0 rfl).1 u0 rfl, (h.2.2 () stDel9 rfl).1 u0 rfl⟩
